import Mathlib

/-!
Verification development for a small Flask contact-form backend
(file `app.py`).  The program validates four form fields (name, email,
phone, message), sanitizes them, formats a notification text and sends
it to a messaging API over HTTP.

Strings are modelled as `List Char` (Python `str` is a sequence of
Unicode code points).  Pure Python functions become Lean functions; the
request handler becomes a function from the request, the configuration,
a timestamp and an abstract network outcome to a response paired with a
record of the effects it performed (whether sanitization ran, and the
outbound payload if a network call was issued).
-/

/-- Code point of a character, as a natural number. -/
def charCode (c : Char) : Nat := c.toNat

/-- The regex class `[0-9]` (also the ASCII fragment of Python `str.isdigit`). -/
def isAsciiDigit (c : Char) : Bool := 48 ≤ charCode c && charCode c ≤ 57

/-- The regex class `[a-zA-Z]`. -/
def isAsciiAlpha (c : Char) : Bool :=
  (65 ≤ charCode c && charCode c ≤ 90) || (97 ≤ charCode c && charCode c ≤ 122)

/-- Python whitespace: the characters stripped by `str.strip()` and matched
by `\s` in a (Unicode) regular expression.  These coincide: code points
0x09 to 0x0D, 0x1C to 0x1F, space, 0x85, 0xA0, 0x1680, 0x2000 to 0x200A,
0x2028, 0x2029, 0x202F, 0x205F and 0x3000. -/
def isPySpace (c : Char) : Bool :=
  (9 ≤ charCode c && charCode c ≤ 13) ||
  (28 ≤ charCode c && charCode c ≤ 31) ||
  charCode c == 32 || charCode c == 133 || charCode c == 160 ||
  charCode c == 0x1680 ||
  (0x2000 ≤ charCode c && charCode c ≤ 0x200a) ||
  charCode c == 0x2028 || charCode c == 0x2029 ||
  charCode c == 0x202f || charCode c == 0x205f || charCode c == 0x3000

/-- The control characters removed by `sanitize_input`:
the regex class `[\x00-\x1f\x7f-\x9f]` in `app.py` line 38. -/
def isCtrlChar (c : Char) : Bool :=
  charCode c ≤ 0x1f || (0x7f ≤ charCode c && charCode c ≤ 0x9f)

/-- Python `str.strip()`: drop leading and trailing whitespace. -/
def pyStrip (s : List Char) : List Char :=
  ((s.dropWhile isPySpace).reverse.dropWhile isPySpace).reverse

/-- One step of Python `html.escape` (with quoting), character by character:
`&` becomes `&amp;`, `<` becomes `&lt;`, `>` becomes `&gt;`, `"` becomes
`&quot;` and the single quote (code 39) becomes `&#x27;`.  `html.escape`
performs these five replacements sequentially starting with `&`; since no
replacement text contains a character replaced later, the sequential
replacement equals this single character-wise pass. -/
def escapeChar (c : Char) : List Char :=
  if c = '&' then ['&', 'a', 'm', 'p', ';']
  else if c = '<' then ['&', 'l', 't', ';']
  else if c = '>' then ['&', 'g', 't', ';']
  else if c = '"' then ['&', 'q', 'u', 'o', 't', ';']
  else if charCode c = 39 then ['&', '#', 'x', '2', '7', ';']
  else [c]

/-- Python `html.escape(text)` from `app.py` line 35. -/
def htmlEscape (s : List Char) : List Char := (s.map escapeChar).flatten

/-- The regex substitution removing control characters,
`re.sub(r'[\x00-\x1f\x7f-\x9f]', '', text)` from `app.py` line 38. -/
def removeCtrl (s : List Char) : List Char := s.filter (fun c => !(isCtrlChar c))

/-- Scans `cs` for the end of a tag opened just before `cs`: succeeds when
`cs = mid ++ '>' :: rest` with `mid` nonempty and free of `>`, which is how
the regex engine matches `<[^>]+>` starting at a `<` (the greedy class
`[^>]+` runs to the first `>`, needing at least one character).
Returns the rest of the input after the closing `>`. -/
def tagSplit (cs : List Char) : Option (List Char) :=
  if (cs.takeWhile (fun x => !(x == '>'))).isEmpty then none
  else
    match cs.dropWhile (fun x => !(x == '>')) with
    | _ :: rest => some rest
    | [] => none

/-- Worker for `stripTags`, structurally recursive on a fuel argument so
that the definition reduces computationally.  Each step consumes at least
one input character, so any `fuel` of at least the input length gives the
untruncated scan; `stripTags` passes the input length. -/
def stripTagsFuel : Nat → List Char → List Char
  | _, [] => []
  | 0, l => l
  | fuel + 1, c :: cs =>
    if c = '<' then
      match tagSplit cs with
      | some rest => stripTagsFuel fuel rest
      | none => c :: stripTagsFuel fuel cs
    else c :: stripTagsFuel fuel cs

/-- Python `re.sub(r'<[^>]+>', '', text)` from `app.py` line 32: scan left to
right; at each `<`, if a tag match starts there, delete it and continue after
its closing `>`; otherwise keep the character and continue with the next
position. -/
def stripTags (l : List Char) : List Char := stripTagsFuel l.length l

/-- `sanitize_input` from `app.py` lines 23 to 43: empty input gives empty
output; otherwise remove HTML-tag-like substrings, HTML-escape the special
characters, remove control characters, and strip surrounding whitespace. -/
def sanitize_input (text : List Char) : List Char :=
  if text.isEmpty then []
  else pyStrip (removeCtrl (htmlEscape (stripTags text)))

/-- The regex class `[a-zA-Z0-9._%+-]` (email local part); the extra
code points are 46 `.`, 95 `_`, 37 `%`, 43 `+` and 45 `-`. -/
def isLocalChar (c : Char) : Bool :=
  isAsciiAlpha c || isAsciiDigit c ||
  charCode c == 46 || charCode c == 95 || charCode c == 37 ||
  charCode c == 43 || charCode c == 45

/-- The regex class `[a-zA-Z0-9.-]` (email domain part);
the extra code points are 46 `.` and 45 `-`. -/
def isDomainChar (c : Char) : Bool :=
  isAsciiAlpha c || isAsciiDigit c || charCode c == 46 || charCode c == 45

/-- Full-string matching of the email regex
`[a-zA-Z0-9._%+-]+@[a-zA-Z0-9.-]+\.[a-zA-Z]{2,}` anchored at both ends,
decided deterministically: the local part is everything before the first
`@` (the class excludes `@`, so a match has exactly one `@`), and the
top-level-domain part is everything after the last `.` of the remainder
(the class `[a-zA-Z]` excludes `.`).  When a `dropWhile` below returns a
nonempty list its head is necessarily the searched character, so the
head is matched anonymously. -/
def emailCore (s : List Char) : Bool :=
  match s.dropWhile (fun c => !(c == '@')) with
  | [] => false
  | _ :: r =>
      match r.reverse.dropWhile (fun c => !(c == '.')) with
      | [] => false
      | _ :: drev =>
          !(s.takeWhile (fun c => !(c == '@'))).isEmpty &&
          (s.takeWhile (fun c => !(c == '@'))).all isLocalChar &&
          !drev.isEmpty && drev.all isDomainChar &&
          decide (2 ≤ (r.reverse.takeWhile (fun c => !(c == '.'))).length) &&
          (r.reverse.takeWhile (fun c => !(c == '.'))).all isAsciiAlpha

/-- The email pattern stated as in the specification: some decomposition
`local-part ++ "@" ++ domain ++ "." ++ tld` with a nonempty local part of
characters `[a-zA-Z0-9._%+-]`, a nonempty domain of characters
`[a-zA-Z0-9.-]`, and a top-level domain of at least two characters
`[a-zA-Z]`. -/
def emailPatternSpec (s : List Char) : Prop :=
  ∃ l d t : List Char,
    s = l ++ '@' :: (d ++ '.' :: t) ∧
    l ≠ [] ∧ (∀ c ∈ l, isLocalChar c = true) ∧
    d ≠ [] ∧ (∀ c ∈ d, isDomainChar c = true) ∧
    2 ≤ t.length ∧ (∀ c ∈ t, isAsciiAlpha c = true)

/-- `validate_email` from `app.py` lines 46 to 54:
`bool(re.match(r'^[a-zA-Z0-9._%+-]+@[a-zA-Z0-9.-]+\.[a-zA-Z]{2,}$', email))`
after an emptiness guard.  In Python, `$` (without `re.MULTILINE`) matches
at the end of the string or just before a single newline ending the string,
so the regex also accepts a full match followed by one trailing `\n`
(no character class of this pattern contains `\n`). -/
def validate_email (email : List Char) : Bool :=
  if email.isEmpty then false
  else emailCore email ||
    ((email.getLast? == some '\n') && emailCore email.dropLast)

/-- The characters removed by the phone cleaning regex `[\s\-\(\)\+]`
from `app.py` line 66: whitespace, `-`, `(`, `)` and `+`. -/
def phoneStripChar (c : Char) : Bool :=
  isPySpace c || c == '-' || c == '(' || c == ')' || c == '+'

/-- Python `str.isdigit` restricted to its ASCII fragment: nonempty and all
characters `0` to `9`.  (Python `str.isdigit` also accepts certain
non-ASCII digit code points; theorems relating `validate_phone` to this
embedding are therefore stated for ASCII inputs, on which both agree.) -/
def pyIsdigitStr (l : List Char) : Bool := !l.isEmpty && l.all isAsciiDigit

/-- `validate_phone` from `app.py` lines 57 to 69: empty passes; otherwise
remove the characters of `[\s\-\(\)\+]` and require the remainder to be a
nonempty all-digit string of length at least 10. -/
def validate_phone (phone : List Char) : Bool :=
  if phone.isEmpty then true
  else
    pyIsdigitStr (phone.filter (fun c => !(phoneStripChar c))) &&
    decide (10 ≤ (phone.filter (fun c => !(phoneStripChar c))).length)

/-- The name checks of `submit_contact_form` (`app.py` lines 114 to 119),
as the list of error messages they append. -/
def nameErrors (name : List Char) : List String :=
  if name.isEmpty then ["Name is required"]
  else if name.length < 2 then ["Name must be at least 2 characters long"]
  else if 100 < name.length then ["Name must be less than 100 characters"]
  else []

/-- The email checks of `submit_contact_form` (`app.py` lines 121 to 124). -/
def emailErrors (email : List Char) : List String :=
  if email.isEmpty then ["Email is required"]
  else if !(validate_email email) then ["Invalid email format"]
  else []

/-- The message checks of `submit_contact_form` (`app.py` lines 126 to 131). -/
def messageErrors (message : List Char) : List String :=
  if message.isEmpty then ["Message is required"]
  else if message.length < 10 then ["Message must be at least 10 characters long"]
  else if 1000 < message.length then ["Message must be less than 1000 characters"]
  else []

/-- The phone check of `submit_contact_form` (`app.py` lines 133 to 135). -/
def phoneErrors (phone : List Char) : List String :=
  if !phone.isEmpty && !(validate_phone phone) then ["Invalid phone number format"]
  else []

/-- The validation of `submit_contact_form` (`app.py` lines 112 to 135),
written as the code writes it: start from the empty list and conditionally
append one message per failed rule, field by field. -/
def validationErrors (name email phone message : List Char) : List String :=
  let errs : List String := []
  let errs := if name.isEmpty then errs ++ ["Name is required"]
    else if name.length < 2 then errs ++ ["Name must be at least 2 characters long"]
    else if 100 < name.length then errs ++ ["Name must be less than 100 characters"]
    else errs
  let errs := if email.isEmpty then errs ++ ["Email is required"]
    else if !(validate_email email) then errs ++ ["Invalid email format"]
    else errs
  let errs := if message.isEmpty then errs ++ ["Message is required"]
    else if message.length < 10 then errs ++ ["Message must be at least 10 characters long"]
    else if 1000 < message.length then errs ++ ["Message must be less than 1000 characters"]
    else errs
  let errs := if !phone.isEmpty && !(validate_phone phone) then
      errs ++ ["Invalid phone number format"]
    else errs
  errs

/-- `format_message_for_telegram` from `app.py` lines 72 to 95, with the
timestamp (`datetime.now().strftime(...)` in the source) passed as an
explicit parameter. -/
def format_message_for_telegram (name email phone message timestamp : String) : String :=
  "\n🔔 *New Contact Form Submission*\n\n📅 *Date:* " ++ timestamp ++
  "\n📍 *Location:* McDonald\x27s NYC - Times Square\n\n👤 *Name:* " ++ name ++
  "\n📧 *Email:* " ++ email ++
  "\n📱 *Phone:* " ++ (if phone.isEmpty then "Not provided" else phone) ++
  "\n\n💬 *Message:*\n" ++ message ++
  "\n\n---\nThis message was sent from the McDonald\x27s Times Square contact form.\n"

/-- The two configured identifiers (module globals `TELEGRAM_BOT_TOKEN` and
`TELEGRAM_CHAT_ID` in `app.py` lines 18 to 19), modelled as read-only
configuration; the source ships them set to their placeholder values and
instructs the deployer to replace them. -/
structure TelegramConfig where
  botToken : String
  chatId : String
deriving DecidableEq

/-- The four raw form fields of a POST /submit request
(`request.form.get(..., '')`; an absent field is the empty string). -/
structure FormRequest where
  name : List Char
  email : List Char
  phone : List Char
  message : List Char

/-- Abstract outcome of the outbound `requests.post` call to the Telegram
API: either a network-level error (timeout, connection failure, non-2xx
status raised by `raise_for_status`, or an unparseable body), carrying the
server-side error detail, or a 2xx response whose JSON body has a truthy
or falsy `ok` field. -/
inductive TelegramOutcome where
  | netError (detail : String)
  | okResp (ok : Bool)

/-- The JSON response of the route: HTTP status plus the `success` and
`message` fields. -/
structure SubmitResponse where
  status : Nat
  success : Bool
  message : String
deriving DecidableEq

/-- Record of the externally visible effects of one request: whether the
sanitization step ran, and the text of the outbound Telegram payload when
a network call was issued (`none` when no call was made). -/
structure SubmitEffects where
  sanitized : Bool
  requestSent : Option String
deriving DecidableEq

/-- `submit_contact_form` from `app.py` lines 98 to 202: strip the four
fields, collect validation errors (reject with 400 on any), sanitize the
fields, reject with 500 if either configured identifier still equals its
placeholder, otherwise format the message and map the network outcome:
2xx with truthy `ok` gives 200, a falsy `ok` or any request exception
gives 500 with a generic message. -/
def submit_contact_form (cfg : TelegramConfig) (req : FormRequest)
    (timestamp : String) (net : TelegramOutcome) :
    SubmitResponse × SubmitEffects :=
  let name := pyStrip req.name
  let email := pyStrip req.email
  let phone := pyStrip req.phone
  let message := pyStrip req.message
  let errs := validationErrors name email phone message
  if !errs.isEmpty then
    (⟨400, false, "Validation errors: " ++ String.intercalate ", " errs⟩,
     ⟨false, none⟩)
  else
    let name := sanitize_input name
    let email := sanitize_input email
    let phone := if phone.isEmpty then [] else sanitize_input phone
    let message := sanitize_input message
    if cfg.botToken = "YOUR_BOT_TOKEN_HERE" ∨ cfg.chatId = "YOUR_CHAT_ID_HERE" then
      (⟨500, false,
        "Server configuration error: Telegram Bot Token or Chat ID not configured"⟩,
       ⟨true, none⟩)
    else
      let text := format_message_for_telegram
        (String.mk name) (String.mk email) (String.mk phone) (String.mk message)
        timestamp
      match net with
      | .okResp true =>
          (⟨200, true,
            "Thank you! Your message has been sent successfully. We will get back to you soon."⟩,
           ⟨true, some text⟩)
      | .okResp false =>
          (⟨500, false, "Failed to send message. Please try again later."⟩,
           ⟨true, some text⟩)
      | .netError _ =>
          (⟨500, false, "Failed to send message. Please try again later."⟩,
           ⟨true, some text⟩)

/-- Claim-side notion for the sanitizer output check: does the list contain
a substring matching the HTML-tag-like pattern `<[^>]+>`, that is, a `<`
followed by at least one non-`>` character and then a `>`. -/
def containsTagPattern : List Char → Bool
  | [] => false
  | c :: cs => (c == '<' && (tagSplit cs).isSome) || containsTagPattern cs

/-- Modelled from the claim text for the phone rule: the residue of a phone
value after removing exactly the characters of the set
`{space, -, (, ), +}` (a literal space only, not general whitespace). -/
def phoneSpecResidue (l : List Char) : List Char :=
  l.filter (fun c => !(c == ' ' || c == '-' || c == '(' || c == ')' || c == '+'))

/-! ## List helpers -/

theorem takeWhile_append_cons {α : Type} {p : α → Bool} {l r : List α}
    {c : α} (hl : ∀ x ∈ l, p x = true) (hc : p c = false) :
    (l ++ c :: r).takeWhile p = l := by
  induction l with
  | nil => simp [List.takeWhile_cons, hc]
  | cons a tl ih =>
      simp [List.takeWhile_cons, hl a (by simp),
        ih (fun x hx => hl x (by simp [hx]))]

theorem dropWhile_append_cons {α : Type} {p : α → Bool} {l r : List α}
    {c : α} (hl : ∀ x ∈ l, p x = true) (hc : p c = false) :
    (l ++ c :: r).dropWhile p = c :: r := by
  induction l with
  | nil => simp [List.dropWhile_cons, hc]
  | cons a tl ih =>
      simp [List.dropWhile_cons, hl a (by simp),
        ih (fun x hx => hl x (by simp [hx]))]

theorem dropWhile_eq_self_of_all {α : Type} {p : α → Bool} {l : List α}
    (h : ∀ x ∈ l, p x = false) : l.dropWhile p = l := by
  cases l with
  | nil => rfl
  | cons a tl => simp [List.dropWhile_cons, h a (by simp)]

theorem head_cons_dropWhile_false {α : Type} {p : α → Bool} {l tl : List α} {a : α}
    (h : l.dropWhile p = a :: tl) : p a = false := by
  induction l with
  | nil => cases h
  | cons b bs ih =>
      rw [List.dropWhile_cons] at h
      split at h
      · exact ih h
      · rename_i hb
        injection h with h1 _
        subst h1
        revert hb
        cases p b <;> simp

theorem dropWhile_dropWhile {α : Type} {p : α → Bool} (l : List α) :
    (l.dropWhile p).dropWhile p = l.dropWhile p := by
  cases hd : l.dropWhile p with
  | nil => rfl
  | cons a tl =>
      have ha : p a = false := head_cons_dropWhile_false hd
      simp [List.dropWhile_cons, ha]

theorem pyStrip_idem (l : List Char) : pyStrip (pyStrip l) = pyStrip l := by
  unfold pyStrip
  set y := l.dropWhile isPySpace with hy
  set z := (y.reverse.dropWhile isPySpace).reverse with hz
  have hz_rev : z.reverse = y.reverse.dropWhile isPySpace := by
    rw [hz, List.reverse_reverse]
  have hstep1 : z.dropWhile isPySpace = z := by
    cases hzc : z with
    | nil => rfl
    | cons a tl =>
        -- z is a prefix of y, so its head is the head of y, which fails isPySpace
        have hpre : z <+: y := by
          have hsuf : z.reverse <:+ y.reverse := by
            rw [hz_rev]; exact List.dropWhile_suffix isPySpace
          exact (List.reverse_suffix).mp hsuf
        obtain ⟨tail2, htail⟩ := hpre
        have hyform : y = a :: (tl ++ tail2) := by
          rw [← htail, hzc]; rfl
        have hld : l.dropWhile isPySpace = a :: (tl ++ tail2) := by
          rw [← hy]; exact hyform
        have ha : isPySpace a = false := head_cons_dropWhile_false hld
        simp [List.dropWhile_cons, ha]
  rw [hstep1, hz_rev, dropWhile_dropWhile]

theorem pyStrip_eq_self_of_all {l : List Char}
    (h : ∀ c ∈ l, isPySpace c = false) : pyStrip l = l := by
  unfold pyStrip
  rw [dropWhile_eq_self_of_all h,
    dropWhile_eq_self_of_all (fun c hc => h c (List.mem_reverse.mp hc)),
    List.reverse_reverse]

theorem mem_pyStrip {c : Char} {l : List Char} (h : c ∈ pyStrip l) : c ∈ l := by
  unfold pyStrip at h
  rw [List.mem_reverse] at h
  have h2 := (List.dropWhile_sublist _).subset h
  rw [List.mem_reverse] at h2
  exact (List.dropWhile_sublist _).subset h2

theorem mem_removeCtrl {c : Char} {l : List Char} (h : c ∈ removeCtrl l) :
    c ∈ l ∧ isCtrlChar c = false := by
  unfold removeCtrl at h
  have h2 := List.mem_filter.mp h
  refine ⟨h2.1, ?_⟩
  have := h2.2
  revert this
  cases isCtrlChar c <;> simp

theorem mem_htmlEscape_no_angle {c : Char} {s : List Char}
    (h : c ∈ htmlEscape s) : c ≠ '<' ∧ c ≠ '>' := by
  unfold htmlEscape at h
  rw [List.mem_flatten] at h
  obtain ⟨l, hl, hc⟩ := h
  rw [List.mem_map] at hl
  obtain ⟨a, _, rfl⟩ := hl
  unfold escapeChar at hc
  split at hc
  · exact ⟨fun hEq => absurd (hEq ▸ hc) (by decide),
      fun hEq => absurd (hEq ▸ hc) (by decide)⟩
  · split at hc
    · exact ⟨fun hEq => absurd (hEq ▸ hc) (by decide),
        fun hEq => absurd (hEq ▸ hc) (by decide)⟩
    · split at hc
      · exact ⟨fun hEq => absurd (hEq ▸ hc) (by decide),
          fun hEq => absurd (hEq ▸ hc) (by decide)⟩
      · split at hc
        · exact ⟨fun hEq => absurd (hEq ▸ hc) (by decide),
            fun hEq => absurd (hEq ▸ hc) (by decide)⟩
        · split at hc
          · exact ⟨fun hEq => absurd (hEq ▸ hc) (by decide),
              fun hEq => absurd (hEq ▸ hc) (by decide)⟩
          · rename_i h1 h2 h3 h4 h5
            rw [List.mem_singleton] at hc
            subst hc
            exact ⟨h2, h3⟩

theorem htmlEscape_eq_self {s : List Char}
    (h : ∀ c ∈ s, escapeChar c = [c]) : htmlEscape s = s := by
  induction s with
  | nil => rfl
  | cons a tl ih =>
      have ha := h a (by simp)
      have ihh := ih (fun c hc => h c (by simp [hc]))
      unfold htmlEscape at ihh ⊢
      simp [ha, ihh]

theorem stripTagsFuel_eq_self {fuel : Nat} {s : List Char}
    (hfuel : s.length ≤ fuel) (h : ∀ c ∈ s, c ≠ '<') :
    stripTagsFuel fuel s = s := by
  induction fuel generalizing s with
  | zero =>
      cases s with
      | nil => rfl
      | cons a tl =>
          simp only [List.length_cons] at hfuel
          omega
  | succ n ih =>
      cases s with
      | nil => rfl
      | cons a tl =>
          have ha : a ≠ '<' := h a (by simp)
          have htl : tl.length ≤ n := by
            simp only [List.length_cons] at hfuel
            omega
          unfold stripTagsFuel
          rw [if_neg ha, ih htl (fun c hc => h c (by simp [hc]))]

theorem stripTags_eq_self {s : List Char} (h : ∀ c ∈ s, c ≠ '<') :
    stripTags s = s :=
  stripTagsFuel_eq_self (Nat.le_refl _) h

theorem containsTagPattern_eq_false {s : List Char} (h : ∀ c ∈ s, c ≠ '<') :
    containsTagPattern s = false := by
  induction s with
  | nil => rfl
  | cons a tl ih =>
      have ha : (a == '<') = false := by
        have := h a (by simp)
        revert this
        cases hb : a == '<'
        · simp
        · intro hne; exact absurd (by rwa [beq_iff_eq] at hb) hne
      unfold containsTagPattern
      rw [ha, ih (fun c hc => h c (by simp [hc]))]
      rfl

/-! ## Character facts -/

theorem escapeChar_eq_self {c : Char} (h1 : c ≠ '&') (h2 : c ≠ '<')
    (h3 : c ≠ '>') (h4 : c ≠ '"') (h5 : charCode c ≠ 39) :
    escapeChar c = [c] := by
  simp [escapeChar, h1, h2, h3, h4, h5]

theorem emailChar_code {c : Char}
    (h : (isLocalChar c || charCode c == 64 || isDomainChar c) = true) :
    charCode c = 37 ∨ charCode c = 43 ∨ charCode c = 45 ∨
    charCode c = 46 ∨ charCode c = 64 ∨ charCode c = 95 ∨
    (48 ≤ charCode c ∧ charCode c ≤ 57) ∨
    (65 ≤ charCode c ∧ charCode c ≤ 90) ∨
    (97 ≤ charCode c ∧ charCode c ≤ 122) := by
  simp only [isLocalChar, isDomainChar, isAsciiAlpha, isAsciiDigit,
    Bool.or_eq_true, Bool.and_eq_true, decide_eq_true_eq, beq_iff_eq] at h
  omega

theorem emailChar_benign {c : Char}
    (h : (isLocalChar c || charCode c == 64 || isDomainChar c) = true) :
    escapeChar c = [c] ∧ isCtrlChar c = false ∧ isPySpace c = false ∧ c ≠ '<' := by
  have hcode := emailChar_code h
  have h1 : c ≠ '&' := fun hEq => by
    subst hEq; exact absurd hcode (by decide)
  have h2 : c ≠ '<' := fun hEq => by
    subst hEq; exact absurd hcode (by decide)
  have h3 : c ≠ '>' := fun hEq => by
    subst hEq; exact absurd hcode (by decide)
  have h4 : c ≠ '"' := fun hEq => by
    subst hEq; exact absurd hcode (by decide)
  have h5 : charCode c ≠ 39 := by omega
  refine ⟨escapeChar_eq_self h1 h2 h3 h4 h5, ?_, ?_, h2⟩
  · cases hb : isCtrlChar c with
    | false => rfl
    | true =>
        exfalso
        simp only [isCtrlChar, Bool.or_eq_true, Bool.and_eq_true,
          decide_eq_true_eq] at hb
        omega
  · cases hb : isPySpace c with
    | false => rfl
    | true =>
        exfalso
        simp only [isPySpace, Bool.or_eq_true, Bool.and_eq_true,
          decide_eq_true_eq, beq_iff_eq] at hb
        omega

theorem bnot_beq_true_of_ne {x y : Char} (h : x ≠ y) : (!(x == y)) = true := by
  cases hb : x == y
  · rfl
  · exact absurd (beq_iff_eq.mp hb) h

theorem eq_of_bnot_beq_false {x y : Char} (h : (!(x == y)) = false) : x = y := by
  cases hb : x == y
  · rw [hb] at h; cases h
  · exact beq_iff_eq.mp hb

theorem emailCore_eq_of {s r drev : List Char} {a b : Char}
    (hd1 : s.dropWhile (fun c => !(c == '@')) = a :: r)
    (hd2 : r.reverse.dropWhile (fun c => !(c == '.')) = b :: drev) :
    emailCore s =
      (!(s.takeWhile (fun c => !(c == '@'))).isEmpty &&
       (s.takeWhile (fun c => !(c == '@'))).all isLocalChar &&
       !drev.isEmpty && drev.all isDomainChar &&
       decide (2 ≤ (r.reverse.takeWhile (fun c => !(c == '.'))).length) &&
       (r.reverse.takeWhile (fun c => !(c == '.'))).all isAsciiAlpha) := by
  unfold emailCore
  simp only [hd1, hd2]

theorem emailCore_iff_spec (s : List Char) :
    emailCore s = true ↔ emailPatternSpec s := by
  constructor
  · intro h
    unfold emailCore at h
    cases hd1 : s.dropWhile (fun c => !(c == '@')) with
    | nil => simp only [hd1] at h; cases h
    | cons a r =>
        simp only [hd1] at h
        have hfa := head_cons_dropWhile_false hd1
        have ha : a = '@' := eq_of_bnot_beq_false hfa
        cases hd2 : r.reverse.dropWhile (fun c => !(c == '.')) with
        | nil => simp only [hd2] at h; cases h
        | cons b drev =>
            simp only [hd2] at h
            have hfb := head_cons_dropWhile_false hd2
            have hb : b = '.' := eq_of_bnot_beq_false hfb
            simp only [Bool.and_eq_true] at h
            obtain ⟨⟨⟨⟨⟨h1, h2⟩, h3⟩, h4⟩, h5⟩, h6⟩ := h
            set ltw := s.takeWhile (fun c => !(c == '@')) with hltw
            set trev := r.reverse.takeWhile (fun c => !(c == '.')) with htrev
            refine ⟨ltw, drev.reverse, trev.reverse, ?_, ?_, ?_, ?_, ?_, ?_, ?_⟩
            · have hr : r = drev.reverse ++ '.' :: trev.reverse := by
                have hr0 : trev ++
                    r.reverse.dropWhile (fun c => !(c == '.')) = r.reverse := by
                  rw [htrev]; exact List.takeWhile_append_dropWhile _ _
                rw [hd2, hb] at hr0
                have h' := congrArg List.reverse hr0
                rw [List.reverse_reverse] at h'
                rw [← h']
                simp [List.reverse_append]
              conv_lhs => rw [← List.takeWhile_append_dropWhile
                (fun c => !(c == '@')) s]
              rw [hd1, ha, ← hltw, hr]
            · intro hEq
              rw [hEq] at h1
              exact absurd h1 (by decide)
            · exact fun c hc => List.all_eq_true.mp h2 c hc
            · intro hEq
              have hz : drev = [] := by
                have := congrArg List.reverse hEq
                simpa using this
              rw [hz] at h3
              exact absurd h3 (by decide)
            · exact fun c hc => List.all_eq_true.mp h4 c (List.mem_reverse.mp hc)
            · rw [List.length_reverse]
              exact of_decide_eq_true h5
            · exact fun c hc => List.all_eq_true.mp h6 c (List.mem_reverse.mp hc)
  · rintro ⟨l, d, t, rfl, hl0, hl, hd0, hd, ht2, ht⟩
    have hq1 : ∀ x ∈ l, (fun c : Char => !(c == '@')) x = true := by
      intro x hx
      refine bnot_beq_true_of_ne (fun hEq => ?_)
      subst hEq
      exact absurd (hl _ hx) (by decide)
    have hq1c : (fun c : Char => !(c == '@')) '@' = false := by decide
    have hdrop1 := dropWhile_append_cons (r := d ++ '.' :: t) hq1 hq1c
    have htake1 := takeWhile_append_cons (r := d ++ '.' :: t) hq1 hq1c
    have hrrev : (d ++ '.' :: t).reverse = t.reverse ++ '.' :: d.reverse := by
      simp [List.reverse_append]
    have hq2 : ∀ x ∈ t.reverse, (fun c : Char => !(c == '.')) x = true := by
      intro x hx
      refine bnot_beq_true_of_ne (fun hEq => ?_)
      subst hEq
      exact absurd (ht _ (List.mem_reverse.mp hx)) (by decide)
    have hq2c : (fun c : Char => !(c == '.')) '.' = false := by decide
    have hdrop2 := dropWhile_append_cons (r := d.reverse) hq2 hq2c
    have htake2 := takeWhile_append_cons (r := d.reverse) hq2 hq2c
    rw [emailCore_eq_of hdrop1 (by rw [hrrev]; exact hdrop2)]
    rw [htake1, hrrev, htake2]
    have e1 : (!l.isEmpty) = true := by
      cases l with
      | nil => exact absurd rfl hl0
      | cons _ _ => rfl
    have e2 : l.all isLocalChar = true := List.all_eq_true.mpr hl
    have e3 : (!(d.reverse).isEmpty) = true := by
      cases hdr : d.reverse with
      | nil =>
          exact absurd (by simpa using congrArg List.reverse hdr) hd0
      | cons _ _ => rfl
    have e4 : (d.reverse).all isDomainChar = true :=
      List.all_eq_true.mpr (fun c hc => hd c (List.mem_reverse.mp hc))
    have e5 : decide (2 ≤ (t.reverse).length) = true := by
      rw [decide_eq_true_eq, List.length_reverse]
      exact ht2
    have e6 : (t.reverse).all isAsciiAlpha = true :=
      List.all_eq_true.mpr (fun c hc => ht c (List.mem_reverse.mp hc))
    rw [e1, e2, e3, e4, e5, e6]
    rfl

theorem removeCtrl_eq_self {l : List Char}
    (h : ∀ c ∈ l, isCtrlChar c = false) : removeCtrl l = l := by
  unfold removeCtrl
  exact List.filter_eq_self.mpr (fun c hc => by simp [h c hc])

theorem sanitize_input_plain {s : List Char}
    (hlt : ∀ c ∈ s, c ≠ '<') (hesc : ∀ c ∈ s, escapeChar c = [c]) :
    sanitize_input s = pyStrip (removeCtrl s) := by
  unfold sanitize_input
  split
  · rename_i hs
    rw [List.isEmpty_iff] at hs
    rw [hs]
    rfl
  · rw [stripTags_eq_self hlt, htmlEscape_eq_self hesc]

theorem mem_sanitize_input {c : Char} {s : List Char}
    (hc : c ∈ sanitize_input s) :
    c ∈ htmlEscape (stripTags s) ∧ isCtrlChar c = false := by
  unfold sanitize_input at hc
  split at hc
  · cases hc
  · have h1 := mem_pyStrip hc
    exact mem_removeCtrl h1

/-! ## Claims -/

theorem validationErrors_decomp (name email phone message : List Char) :
    validationErrors name email phone message =
      nameErrors name ++ emailErrors email ++
      messageErrors message ++ phoneErrors phone := by
  unfold validationErrors nameErrors emailErrors messageErrors phoneErrors
  split_ifs <;> simp

/-- C9: validation evaluates the four fields independently, collecting all
violations rather than stopping at the first failing field, and the error
list is ordered name, email, message, phone, with the phone check last:
the collected list is exactly the concatenation of the four per-field
error lists in that order. -/
theorem c9_validation_order (name email phone message : List Char) :
    validationErrors name email phone message =
      nameErrors name ++ emailErrors email ++
      messageErrors message ++ phoneErrors phone :=
  validationErrors_decomp name email phone message

/-- C6: the name rules reject exactly the trimmed names of length below 2 or
above 100 (an empty trimmed name is rejected as required-but-missing, which
has length 0 below 2), and the name errors come first in the collected
validation error list. -/
theorem c6_name_length_validation (name email phone message : List Char) :
    (((pyStrip name).length < 2 ∨ 100 < (pyStrip name).length) ↔
      nameErrors (pyStrip name) ≠ []) ∧
    nameErrors (pyStrip name) <+:
      validationErrors (pyStrip name) (pyStrip email)
        (pyStrip phone) (pyStrip message) := by
  constructor
  · unfold nameErrors
    split_ifs with h1 h2 h3
    · rw [List.isEmpty_iff] at h1
      simp [h1]
    · simp [h2]
    · simp [h3]
    · simp
      omega
  · rw [validationErrors_decomp]
    refine ⟨emailErrors (pyStrip email) ++ messageErrors (pyStrip message) ++
      phoneErrors (pyStrip phone), ?_⟩
    simp [List.append_assoc]

/-- C1: when the stripped fields produce a nonempty validation error list,
the route answers HTTP 400 with the message `Validation errors: ` followed
by the collected errors joined by `, `, and performs neither the
sanitization step nor any outbound call. -/
theorem c1_validation_rejected (cfg : TelegramConfig) (req : FormRequest)
    (timestamp : String) (net : TelegramOutcome)
    (h : validationErrors (pyStrip req.name) (pyStrip req.email)
      (pyStrip req.phone) (pyStrip req.message) ≠ []) :
    (submit_contact_form cfg req timestamp net).1.status = 400 ∧
    (submit_contact_form cfg req timestamp net).1.message =
      "Validation errors: " ++ String.intercalate ", "
        (validationErrors (pyStrip req.name) (pyStrip req.email)
          (pyStrip req.phone) (pyStrip req.message)) ∧
    (submit_contact_form cfg req timestamp net).2.sanitized = false ∧
    (submit_contact_form cfg req timestamp net).2.requestSent = none := by
  have hb : (!(validationErrors (pyStrip req.name) (pyStrip req.email)
      (pyStrip req.phone) (pyStrip req.message)).isEmpty) = true := by
    cases hv : validationErrors (pyStrip req.name) (pyStrip req.email)
      (pyStrip req.phone) (pyStrip req.message) with
    | nil => exact absurd hv h
    | cons _ _ => rfl
  unfold submit_contact_form
  dsimp only
  rw [hb]
  simp

theorem c1_witness :
    validationErrors (pyStrip "A".data) (pyStrip "a@b.co".data)
      (pyStrip "".data) (pyStrip "hello there mate".data) ≠ [] ∧
    (submit_contact_form ⟨"realtoken", "realchat"⟩
      ⟨"A".data, "a@b.co".data, "".data, "hello there mate".data⟩
      "2025-01-01 00:00:00" (.okResp true)).1.status = 400 :=
  ⟨by decide, (c1_validation_rejected _ _ _ _ (by decide)).1⟩

/-- C7: for a submission passing validation, if either configured
identifier still equals its placeholder, the route answers HTTP 500 with
the server-configuration error message and issues no outbound request. -/
theorem c7_placeholder_config (cfg : TelegramConfig) (req : FormRequest)
    (timestamp : String) (net : TelegramOutcome)
    (hval : validationErrors (pyStrip req.name) (pyStrip req.email)
      (pyStrip req.phone) (pyStrip req.message) = [])
    (hcfg : cfg.botToken = "YOUR_BOT_TOKEN_HERE" ∨
      cfg.chatId = "YOUR_CHAT_ID_HERE") :
    (submit_contact_form cfg req timestamp net).1 =
      ⟨500, false,
        "Server configuration error: Telegram Bot Token or Chat ID not configured"⟩ ∧
    (submit_contact_form cfg req timestamp net).2.requestSent = none := by
  unfold submit_contact_form
  dsimp only
  rw [hval]
  simp only [List.isEmpty_nil, Bool.not_true]
  rw [if_neg (by simp)]
  rw [if_pos hcfg]
  exact ⟨rfl, rfl⟩

theorem c7_witness :
    validationErrors (pyStrip "Al".data) (pyStrip "a@b.co".data)
      (pyStrip "".data) (pyStrip "hello there mate".data) = [] ∧
    (submit_contact_form ⟨"YOUR_BOT_TOKEN_HERE", "realchat"⟩
      ⟨"Al".data, "a@b.co".data, "".data, "hello there mate".data⟩
      "2025-01-01 00:00:00" (.okResp true)).2.requestSent = none :=
  ⟨by decide,
    (c7_placeholder_config _ _ _ _ (by decide) (Or.inl rfl)).2⟩

/-- C8: for a submission passing validation with non-placeholder
configuration, a network-level failure of the outbound call (whatever
detail it carries) and a 2xx response whose body reports rejection both
produce HTTP 500 with the same fixed generic retry message, so no
underlying error detail reaches the caller. -/
theorem c8_dispatch_failure (cfg : TelegramConfig) (req : FormRequest)
    (timestamp : String) (detail : String)
    (hval : validationErrors (pyStrip req.name) (pyStrip req.email)
      (pyStrip req.phone) (pyStrip req.message) = [])
    (htok : cfg.botToken ≠ "YOUR_BOT_TOKEN_HERE")
    (hchat : cfg.chatId ≠ "YOUR_CHAT_ID_HERE") :
    (submit_contact_form cfg req timestamp (.netError detail)).1 =
      ⟨500, false, "Failed to send message. Please try again later."⟩ ∧
    (submit_contact_form cfg req timestamp (.okResp false)).1 =
      ⟨500, false, "Failed to send message. Please try again later."⟩ := by
  unfold submit_contact_form
  dsimp only
  rw [hval]
  simp only [List.isEmpty_nil, Bool.not_true]
  rw [if_neg (by simp)]
  rw [if_neg (show ¬(cfg.botToken = "YOUR_BOT_TOKEN_HERE" ∨
    cfg.chatId = "YOUR_CHAT_ID_HERE") from fun hOr => hOr.elim htok hchat)]
  exact ⟨rfl, rfl⟩

theorem c8_witness :
    validationErrors (pyStrip "Al".data) (pyStrip "a@b.co".data)
      (pyStrip "".data) (pyStrip "hello there mate".data) = [] ∧
    (submit_contact_form ⟨"realtoken", "realchat"⟩
      ⟨"Al".data, "a@b.co".data, "".data, "hello there mate".data⟩
      "2025-01-01 00:00:00" (.netError "connection timed out")).1 =
      ⟨500, false, "Failed to send message. Please try again later."⟩ :=
  ⟨by decide,
    (c8_dispatch_failure _ _ _ "connection timed out" (by decide)
      (by decide) (by decide)).1⟩

/-- C2 counterexample: `validate_email` accepts the string `a@b.co`
followed by a newline, although that string does not match the email
pattern anchored at both ends (Python `$` also matches just before one
trailing newline), so acceptance is not equivalent to matching the
pattern. -/
theorem c2_counterexample :
    validate_email ("a@b.co\n".data) = true ∧
    ¬ emailPatternSpec ("a@b.co\n".data) := by
  constructor
  · decide
  · intro h
    have hc := (emailCore_iff_spec _).mpr h
    exact absurd hc (by decide)

/-- C2 amended: for nonempty input, `validate_email` accepts exactly the
strings matching the pattern
`local-part [a-zA-Z0-9._%+-]+ @ domain [a-zA-Z0-9.-]+ . tld [a-zA-Z]{2,}`
or consisting of such a match followed by one trailing newline. -/
theorem c2_validate_email_amended (s : List Char) (h : s ≠ []) :
    validate_email s = true ↔
      emailPatternSpec s ∨ ∃ c, s = c ++ ['\n'] ∧ emailPatternSpec c := by
  unfold validate_email
  have hb : s.isEmpty = false := by
    cases s with
    | nil => exact absurd rfl h
    | cons _ _ => rfl
  rw [if_neg (by simp [hb])]
  rw [Bool.or_eq_true, Bool.and_eq_true]
  constructor
  · rintro (h1 | ⟨h2, h3⟩)
    · exact Or.inl ((emailCore_iff_spec s).mp h1)
    · have hLast : s.getLast? = some '\n' := beq_iff_eq.mp h2
      have hmem : '\n' ∈ s.getLast? := by rw [hLast]; rfl
      refine Or.inr ⟨s.dropLast,
        (List.dropLast_append_getLast? _ hmem).symm,
        (emailCore_iff_spec _).mp h3⟩
  · rintro (h1 | ⟨c, rfl, h2⟩)
    · exact Or.inl ((emailCore_iff_spec s).mpr h1)
    · right
      constructor
      · rw [List.getLast?_concat]
        rfl
      · rw [List.dropLast_concat]
        exact (emailCore_iff_spec c).mpr h2

theorem c2_witness :
    ("u@ex.com".data ≠ ([] : List Char)) ∧
    (validate_email "u@ex.com".data = true ↔
      emailPatternSpec "u@ex.com".data ∨
      ∃ c, "u@ex.com".data = c ++ ['\n'] ∧ emailPatternSpec c) :=
  ⟨by decide, c2_validate_email_amended _ (by decide)⟩

/-- C3 counterexample: the claim removes exactly the characters of the set
containing space, `-`, `(`, `)` and `+`, under which the residue of
`12345` tab `67890` keeps its tab, contains a non-digit and must be
rejected; but the code removes every regex-whitespace character
(`\s` includes the tab), so `validate_phone` accepts this value. -/
theorem c3_counterexample :
    validate_phone "12345\t67890".data = true ∧
    (phoneSpecResidue "12345\t67890".data).all isAsciiDigit = false := by
  constructor
  · decide
  · decide

/-- C3 amended: the empty value always passes; a nonempty (ASCII) value is
rejected exactly when, after removing all whitespace characters together
with `-`, `(`, `)` and `+`, the remainder contains a non-digit character
or is shorter than 10 characters.  (The ASCII hypothesis marks the scope
of the embedding: Python `str.isdigit` also accepts some non-ASCII digit
code points, on which this model is not claimed faithful.) -/
theorem c3_validate_phone_amended (phone : List Char)
    (hAscii : ∀ c ∈ phone, charCode c < 128) (h : phone ≠ []) :
    (validate_phone [] = true) ∧
    (validate_phone phone = false ↔
      ((phone.filter (fun c => !(phoneStripChar c))).all isAsciiDigit = false ∨
       (phone.filter (fun c => !(phoneStripChar c))).length < 10)) := by
  refine ⟨rfl, ?_⟩
  unfold validate_phone pyIsdigitStr
  have hb : phone.isEmpty = false := by
    cases phone with
    | nil => exact absurd rfl h
    | cons _ _ => rfl
  rw [if_neg (by simp [hb])]
  generalize phone.filter (fun c => !(phoneStripChar c)) = cl
  cases cl with
  | nil => simp
  | cons a tl =>
      simp only [List.isEmpty_cons, Bool.not_false, Bool.true_and,
        Bool.and_eq_false_iff, decide_eq_false_iff_not, Nat.not_le]

theorem c3_witness :
    (∀ c ∈ "(123) 456-7890".data, charCode c < 128) ∧
    ("(123) 456-7890".data ≠ ([] : List Char)) ∧
    (validate_phone ([] : List Char) = true ∧
     (validate_phone "(123) 456-7890".data = false ↔
       (("(123) 456-7890".data.filter
           (fun c => !(phoneStripChar c))).all isAsciiDigit = false ∨
        ("(123) 456-7890".data.filter
           (fun c => !(phoneStripChar c))).length < 10))) :=
  ⟨by decide, by decide, c3_validate_phone_amended _ (by decide) (by decide)⟩

/-- C4 counterexample: sanitizing the one-character string `&` gives
`&amp;`, and sanitizing that again gives `&amp;amp;`, so sanitization is
not idempotent. -/
theorem c4_counterexample :
    sanitize_input (sanitize_input ['&']) ≠ sanitize_input ['&'] := by decide

/-- C4 amended: sanitization is idempotent on strings containing none of
the five HTML-escaped characters `&`, `<`, `>`, the double quote and the
single quote (code 39).  On such strings the escape step is the identity,
so a second sanitization only repeats the control-character filter and the
strip, which are idempotent; a string containing an escaped character
produces an output with a fresh `&` that a second pass escapes again. -/
theorem c4_sanitize_idem_amended (s : List Char)
    (h : ∀ c ∈ s, (c == '&' || c == '<' || c == '>' || c == '"' ||
      charCode c == 39) = false) :
    sanitize_input (sanitize_input s) = sanitize_input s := by
  have hspec : ∀ c ∈ s,
      c ≠ '&' ∧ c ≠ '<' ∧ c ≠ '>' ∧ c ≠ '"' ∧ charCode c ≠ 39 := by
    intro c hc
    have hx := h c hc
    simp only [Bool.or_eq_false_iff, beq_eq_false_iff_ne] at hx
    obtain ⟨⟨⟨⟨ha, hb⟩, hcq⟩, hd⟩, he⟩ := hx
    exact ⟨ha, hb, hcq, hd, he⟩
  have hesc : ∀ c ∈ s, escapeChar c = [c] := by
    intro c hc
    obtain ⟨h1, h2, h3, h4, h5⟩ := hspec c hc
    exact escapeChar_eq_self h1 h2 h3 h4 h5
  have hlt : ∀ c ∈ s, c ≠ '<' := fun c hc => (hspec c hc).2.1
  rw [sanitize_input_plain hlt hesc]
  have hmem : ∀ c ∈ pyStrip (removeCtrl s), c ∈ s ∧ isCtrlChar c = false := by
    intro c hc
    exact mem_removeCtrl (mem_pyStrip hc)
  have hesc2 : ∀ c ∈ pyStrip (removeCtrl s), escapeChar c = [c] :=
    fun c hc => hesc c (hmem c hc).1
  have hlt2 : ∀ c ∈ pyStrip (removeCtrl s), c ≠ '<' :=
    fun c hc => hlt c (hmem c hc).1
  rw [sanitize_input_plain hlt2 hesc2]
  rw [removeCtrl_eq_self (fun c hc => (hmem c hc).2)]
  exact pyStrip_idem (removeCtrl s)

theorem c4_witness :
    (∀ c ∈ "  ok  ".data, (c == '&' || c == '<' || c == '>' || c == '"' ||
      charCode c == 39) = false) ∧
    sanitize_input (sanitize_input "  ok  ".data) =
      sanitize_input "  ok  ".data :=
  ⟨by decide, c4_sanitize_idem_amended _ (by decide)⟩

/-- C5: the sanitizer output never contains a substring matching the
HTML-tag-like pattern `<[^>]+>` (after the escape step the output contains
no `<` at all) and never contains a control character of the ranges
0x00 to 0x1F and 0x7F to 0x9F. -/
theorem c5_sanitized_output_clean (s : List Char) :
    containsTagPattern (sanitize_input s) = false ∧
    (sanitize_input s).any isCtrlChar = false := by
  have hmem : ∀ c ∈ sanitize_input s, c ≠ '<' ∧ isCtrlChar c = false := by
    intro c hc
    have h1 := mem_sanitize_input hc
    exact ⟨(mem_htmlEscape_no_angle h1.1).1, h1.2⟩
  refine ⟨containsTagPattern_eq_false (fun c hc => (hmem c hc).1), ?_⟩
  cases ha : (sanitize_input s).any isCtrlChar with
  | false => rfl
  | true =>
      obtain ⟨c, hc, hcc⟩ := List.any_eq_true.mp ha
      rw [(hmem c hc).2] at hcc
      cases hcc

/-- C10: sanitization is the identity on every string that fully matches
the email validation pattern anchored at both ends: every character of
such a string is an alphanumeric or one of `._%+-@`, and these survive
tag removal, escaping, control filtering and stripping unchanged. -/
theorem c10_sanitize_id_on_email (s : List Char) (h : emailCore s = true) :
    sanitize_input s = s := by
  obtain ⟨l, d, t, rfl, hl0, hl, hd0, hd, ht2, ht⟩ := (emailCore_iff_spec _).mp h
  have hall : ∀ c ∈ l ++ '@' :: (d ++ '.' :: t),
      (isLocalChar c || charCode c == 64 || isDomainChar c) = true := by
    intro c hc
    simp only [List.mem_append, List.mem_cons] at hc
    rcases hc with hc | hc | hc | hc | hc
    · simp [hl c hc]
    · subst hc; decide
    · simp [hd c hc]
    · subst hc; decide
    · simp [isDomainChar, ht c hc]
  have hb := fun c hc => emailChar_benign (hall c hc)
  rw [sanitize_input_plain (fun c hc => (hb c hc).2.2.2)
    (fun c hc => (hb c hc).1)]
  rw [removeCtrl_eq_self (fun c hc => (hb c hc).2.1)]
  exact pyStrip_eq_self_of_all (fun c hc => (hb c hc).2.2.1)

theorem c10_witness :
    emailCore "info@example.com".data = true ∧
    sanitize_input "info@example.com".data = "info@example.com".data :=
  ⟨by decide, c10_sanitize_id_on_email _ (by decide)⟩
